import Mathlib

/-!
Verification of the OneSync server-side entity replication engine
(`code/components/citizen-server-impl/src/state/ServerGameState.cpp`).

The C++ state is embedded shallowly:
* per-slot bitsets (`eastl::bitset`) become functions `Nat → Bool`;
* the 8192-entry sparse weak-pointer array `m_entitiesById` becomes
  `Nat → Option SyncEntityState` (the dense `m_entityList` is kept in sync
  with it by the source under the respective locks, so one view suffices);
* bit-packed message fields become lists of booleans read most
  significant bit first, as `rl::MessageBuffer` packs them;
* float positions and distances become rationals;
* the opaque per-entity sync tree is represented by its node list
  (each node carrying `frameIndex` and the `ackedPlayers` bitset, the two
  fields the engine itself touches) plus the history of payloads handed to
  `Parse`, which stands for the otherwise-opaque tree contents.
All operations are sequentialised: the source defers destructive removal
steps through the script and net threads, and the model applies them in
program order.
-/

/-- The `updateFn f i v` helper models a single-point write to a per-slot or
per-object-id array or bitset. -/
def updateFn {α : Type} (f : Nat → α) (i : Nat) (v : α) : Nat → α :=
  fun n => if n = i then v else f n

theorem updateFn_apply {α : Type} (f : Nat → α) (i : Nat) (v : α) (n : Nat) :
    updateFn f i v n = if n = i then v else f n := rfl

theorem updateFn_same {α : Type} (f : Nat → α) (i : Nat) (v : α) :
    updateFn f i v i = v := by simp [updateFn]

theorem updateFn_other {α : Type} (f : Nat → α) (i : Nat) (v : α) (n : Nat)
    (h : n ≠ i) : updateFn f i v n = f n := by simp [updateFn, h]

/-- The source declares `static constexpr const int MaxObjectId = 1 << 13;`. -/
def MaxObjectId : Nat := 1 <<< 13

/-- Value of a bit string read most significant bit first, as
`rl::MessageBuffer::Read` assembles multi-bit fields. -/
def bitsToNat (bs : List Bool) : Nat :=
  bs.foldl (fun acc b => 2 * acc + (if b then 1 else 0)) 0

/-- Read an `n`-bit field from the front of a bit stream: the field value and
the remaining stream. -/
def readBits (n : Nat) (bs : List Bool) : Nat × List Bool :=
  (bitsToNat (bs.take n), bs.drop n)

/-- Entity type tags (`sync::NetObjEntityType`). Modelled from the spec: the
enum itself is declared in a header outside the provided source; the spec
lists the variants Automobile, Bike, Boat, Heli, Plane, Submarine, Trailer,
Train, Ped, Player, Object. The engine only compares tags for equality and
switches over them, so the numeric values of the enum are not needed. -/
inductive NetObjEntityType where
  | Automobile
  | Bike
  | Boat
  | Heli
  | Plane
  | Submarine
  | Trailer
  | Train
  | Ped
  | Player
  | Object
  deriving DecidableEq, Repr

/-- One node of an entity's sync tree, as the engine sees it through
`Visit`: a `frameIndex` and a per-slot `ackedPlayers` bitset. -/
structure NodeBase where
  frameIndex : Nat
  ackedPlayers : Nat → Bool

/-- The per-entity state `sync::SyncEntityState`. `client` is the owning
client's weak pointer, modelled as the owner's net id when the weak pointer
is live. `parsedPayloads` stands for the opaque contents of the sync tree:
the list of payloads handed to `syncTree->Parse`, in order. Position fields
model the `GetData("posX")` entries the drop handler reads. -/
structure SyncEntityState where
  handle : Nat
  type : NetObjEntityType
  client : Option Nat
  timestamp : Nat
  ackedCreation : Nat → Bool
  didDeletion : Nat → Bool
  lastResends : Nat → Nat
  lastSyncs : Nat → Nat
  hasSyncTree : Bool
  nodes : List NodeBase
  parsedPayloads : List (List Bool)
  deleting : Bool
  posX : ℚ
  posY : ℚ
  posZ : ℚ

/-- Per-client sync data (`GameStateClientData`). The 16 KiB ack bit buffer
is modelled as the list of records written into it, each a (3-bit tag,
value) pair. `syncTs` and `timestampData` model the client data entries
read and written through `GetData`/`SetData`; `syncTs` is 0 when unset, as
the source substitutes 0 for a missing value. -/
structure GameStateClientData where
  ackRecords : List (Nat × Nat)
  objectIds : Nat → Bool
  playerEntity : Option Nat
  playerId : Option Nat
  pendingRemovals : Nat → Bool
  syncTs : Nat
  timestampData : Option Int

/-- A connected client as the engine sees it: net id and slot id. The
sentinel slot value `0xFFFFFFFF` is the source's `-1` slot. -/
structure ClientRef where
  netId : Nat
  slotId : Nat
  deriving DecidableEq, Repr

/-- The replication engine state (`fx::ServerGameState` plus the per-client
sync data reached through the client registry). -/
structure GameState where
  entitiesById : Nat → Option SyncEntityState
  objectIdsUsed : Nat → Bool
  objectIdsSent : Nat → Bool
  objectIdsStolen : Nat → Bool
  clientData : Nat → GameStateClientData
  clients : List ClientRef
  frameIndex : Nat

/-- Write one entity back through the sparse array (mutations in the source
happen through the shared pointer and are visible in both registry views). -/
def commitEntity (st : GameState) (objectId : Nat) (e : SyncEntityState) :
    GameState :=
  { st with entitiesById := updateFn st.entitiesById objectId (some e) }

/-- Update one client's sync data in place. -/
def modifyClientData (st : GameState) (netId : Nat)
    (f : GameStateClientData → GameStateClientData) : GameState :=
  { st with clientData := updateFn st.clientData netId (f (st.clientData netId)) }

/-- The lookup `ServerGameState::GetEntity(playerId, objectId)` (source lines
310-324): out-of-range ids fall outside the 8192-entry sparse array and
yield an empty pointer. -/
def GetEntity (st : GameState) (objectId : Nat) : Option SyncEntityState :=
  if objectId ≥ MaxObjectId then none else st.entitiesById objectId

/-- The handle construction `MakeEntityHandle` (source lines 242-245). -/
def MakeEntityHandle (playerId : Nat) (objectId : Nat) : Nat :=
  ((playerId + 1) <<< 16) ||| objectId

/-- The LZ4 worst-case compressed size for a payload, the library's
documented `LZ4_COMPRESSBOUND` formula from the lz4 dependency. -/
def LZ4_compressBound (isize : Nat) : Nat :=
  isize + isize / 255 + 16

/-- Whether `FlushBuffer` (source lines 388-416) sends a packet: it only
does anything when the buffer holds data. -/
def FlushBuffer_sends (dataLength : Nat) : Bool :=
  dataLength > 0

/-- Whether `MaybeFlushBuffer` (source lines 418-424) sends a packet: it
calls `FlushBuffer` exactly when the LZ4 compression bound of the current
data length is strictly greater than 1100. -/
def MaybeFlushBuffer_sends (dataLength : Nat) : Bool :=
  if LZ4_compressBound dataLength > 1100 then FlushBuffer_sends dataLength
  else false

/-- Per-type object radius used for the frustum test (source lines 719-733). -/
def objRadiusOf : NetObjEntityType → ℚ
  | .Ped => 5 / 2
  | .Player => 5 / 2
  | .Heli => 15
  | .Boat => 15
  | .Plane => 15
  | _ => 5

/-- The sync-cadence decision of `Tick` (source lines 711-754). `syncDelay`
starts at 50 ms; under `radiusFrequency`, for an entity with a sync tree, a
failed frustum test raises it to 150 ms, and then - independently of the
frustum result - the squared distance to the player focus overrides it to
500 ms beyond 500 units or 250 ms beyond 250 units whenever the client has
a player entity. `IsInFrustum` is float linear algebra over the view
matrix; its boolean outcome is taken as an input. -/
def computeSyncDelay (radiusFrequency hasSyncTree inFrustum hasPlayerEntity : Bool)
    (dist2 : ℚ) : Nat :=
  let syncDelay := 50
  if radiusFrequency then
    if hasSyncTree then
      let syncDelay := if !inFrustum then 150 else syncDelay
      if hasPlayerEntity then
        if dist2 > 500 * 500 then 500
        else if dist2 > 250 * 250 then 250
        else syncDelay
      else syncDelay
    else syncDelay
  else syncDelay

/-- The sync-cadence rule as the claim words it: the frustum test decides
first, and the distance tiering applies only in the else branch, when the
entity is inside the frustum. Written from the spec for comparison with
`computeSyncDelay`. -/
def claimSyncDelay (inFrustum : Bool) (dist2 : ℚ) : Nat :=
  if !inFrustum then 150
  else if dist2 > 500 * 500 then 500
  else if dist2 > 250 * 250 then 250
  else 50

/-- The fields of one inbound clone record after the 3-bit tag. The 13-bit
`objectId` field is kept as raw bits; the 4-bit type field's decoding to
`sync::NetObjEntityType` happens by a plain integer cast whose enum values
live outside the provided source, so the decoded tag is carried directly;
`payload` is the `len*8`-bit sync-tree data. -/
structure CloneMsg where
  objectIdBits : List Bool
  objectType : NetObjEntityType
  payload : List Bool

/-- A fresh sync tree built by `MakeSyncTree(objectType)`. Modelled from the
spec: the tree's node structure is opaque to the core and built outside the
provided source; a fresh tree carries no acknowledged players, and no claim
depends on the node shape of a just-created entity, so it is modelled with
an empty node list. -/
def MakeSyncTree (_objectType : NetObjEntityType) : List NodeBase := []

/-- Source lines 1769-1770: `entity->didDeletion.reset(client->GetSlotId());
entity->ackedCreation.set(client->GetSlotId());`. -/
def writeAckBits (e : SyncEntityState) (slot : Nat) : SyncEntityState :=
  { e with
    didDeletion := updateFn e.didDeletion slot false
    ackedCreation := updateFn e.ackedCreation slot true }

/-- Source lines 1791-1811: stamp the owner timestamp, parse the payload
into the sync tree, zero `lastResends`, and on a create visit every node and
clear its `ackedPlayers` bitset. The parse itself only happens when the
entity has a sync tree. -/
def applySyncPayload (e : SyncEntityState) (parsingType : Nat)
    (timestamp : Nat) (payload : List Bool) : SyncEntityState :=
  let e := { e with timestamp := timestamp }
  if e.hasSyncTree then
    let e := { e with
      parsedPayloads := e.parsedPayloads ++ [payload]
      lastResends := fun _ => 0 }
    if parsingType = 1 then
      { e with nodes := e.nodes.map (fun n => { n with ackedPlayers := fun _ => false }) }
    else e
  else e

/-- Source lines 1846-1850: on a created-here entity, clear
`pendingRemovals[objectId]` for every connected client. -/
def resetPendingRemovalsAll (st : GameState) (objectId : Nat) : GameState :=
  st.clients.foldl
    (fun acc c =>
      modifyClientData acc c.netId
        (fun cd => { cd with pendingRemovals := updateFn cd.pendingRemovals objectId false }))
    st

/-- The brand-new entity built on a first create (source lines 1705-1713). -/
def freshEntity (objectType : NetObjEntityType) (clientNetId : Nat)
    (_frameIndex : Nat) (objectId : Nat) : SyncEntityState :=
  { handle := MakeEntityHandle 0 objectId
    type := objectType
    client := some clientNetId
    timestamp := 0
    ackedCreation := fun _ => false
    didDeletion := fun _ => false
    lastResends := fun _ => 0
    lastSyncs := fun _ => 0
    hasSyncTree := true
    nodes := MakeSyncTree objectType
    parsedPayloads := []
    deleting := false
    posX := 0
    posY := 0
    posZ := 0 }

/-- The shared tail of `ProcessClonePacket` after the create/validity
branching (source lines 1769-1852): write the sender's ack bits, then check
the owner, and only for the right owner stamp the timestamp, parse the
payload, handle the `Player` bookkeeping, write `outObjectId` and clear the
created-here pending removals. -/
def ProcessClonePacketCommon (st : GameState) (client : ClientRef)
    (parsingType : Nat) (payload : List Bool) (objectId : Nat)
    (timestamp : Nat) (e : SyncEntityState) (createdHere : Bool) :
    GameState × Option Nat :=
  let st := if createdHere then commitEntity st objectId e else st
  let e := writeAckBits e client.slotId
  match e.client with
  | none => (commitEntity st objectId e, none)
  | some ownerId =>
    if ownerId ≠ client.netId then
      -- wrong owner: the ack-bit write above is already visible
      (commitEntity st objectId e, none)
    else
      let e := applySyncPayload e parsingType timestamp payload
      let st := commitEntity st objectId e
      let st :=
        if e.type = NetObjEntityType.Player then
          modifyClientData st client.netId
            (fun cd => { cd with playerEntity := some objectId })
        else st
      let st := if createdHere then resetPendingRemovalsAll st objectId else st
      (st, some objectId)

/-- `ServerGameState::ProcessClonePacket` (source lines 1649-1852). Returns
the new state and the value written through `outObjectId`: `none` models the
early returns that leave the caller's `objectId = 0` default in place. The
`playerId` stub assignment and the one-time `timestamp` client-data write
happen before any validation, exactly as in the source; the frame index is
ignored here because the created entity's `frameIndex`/`lastFrameIndex`
fields are not read by any modelled operation. -/
def ProcessClonePacket (st : GameState) (client : ClientRef)
    (parsingType : Nat) (msg : CloneMsg) : GameState × Option Nat :=
  let objectId := bitsToNat (msg.objectIdBits.take 13)
  let objectType :=
    if parsingType = 1 then msg.objectType else NetObjEntityType.Train
  let timestamp := (st.clientData client.netId).syncTs
  let st := modifyClientData st client.netId (fun cd =>
    { cd with timestampData := some (cd.timestampData.getD (Int.ofNat timestamp)) })
  let st := modifyClientData st client.netId (fun cd =>
    { cd with playerId := some 0 })
  let entity0 := GetEntity st objectId
  let validEntity :=
    match entity0 with
    | some e => e.client.isSome
    | none => false
  -- branch on parsingType / validity, mirroring lines 1701-1767
  let creation :
      Option (SyncEntityState × Bool) :=
    if parsingType = 1 then
      if !validEntity then
        some (freshEntity objectType client.netId st.frameIndex objectId, true)
      else
        none -- duplicate create: log when the type differs, then drop
    else
      if !validEntity then
        none -- sync/remove for an invalid entity: log and drop
      else
        (entity0.map (fun e => (e, false)))
  match creation with
  | none => (st, none)
  | some (e, createdHere) =>
    ProcessClonePacketCommon st client parsingType msg.payload objectId
      timestamp e createdHere

/-- `ServerGameState::ProcessCloneCreate` (source lines 1472-1487): run the
packet , mark the out-parameter's object id - 0 when the parse rejected the
record - as used, and append a tag-1 ack record carrying that id. -/
def ProcessCloneCreate (st : GameState) (client : ClientRef)
    (msg : CloneMsg) : GameState :=
  let res := ProcessClonePacket st client 1 msg
  let objectId := res.2.getD 0
  let st := { res.1 with objectIdsUsed := updateFn res.1.objectIdsUsed objectId true }
  modifyClientData st client.netId
    (fun cd => { cd with ackRecords := cd.ackRecords ++ [(1, objectId)] })

/-- `ServerGameState::ProcessCloneSync` (source lines 1489-1499). -/
def ProcessCloneSync (st : GameState) (client : ClientRef)
    (msg : CloneMsg) : GameState :=
  let res := ProcessClonePacket st client 2 msg
  let objectId := res.2.getD 0
  modifyClientData res.1 client.netId
    (fun cd => { cd with ackRecords := cd.ackRecords ++ [(2, objectId)] })

/-- `ServerGameState::RemoveClone` (source lines 1580-1647) together with the
stolen-id bookkeeping of `OnCloneRemove` (source lines 982-1010). The
destructive step is deferred through the script and net threads in the
source and applied in order here. The vehicle-occupant cleanup touches only
opaque sync-tree data and is outside the model. -/
def RemoveClone (st : GameState) (client : ClientRef) (objectId : Nat) :
    GameState :=
  match st.entitiesById objectId with
  | none => st
  | some e =>
    if e.deleting then st
    else
      let stolen := st.objectIdsStolen objectId
      let st :=
        if stolen then
          let st := { st with
            objectIdsSent := updateFn st.objectIdsSent objectId false
            objectIdsStolen := updateFn st.objectIdsStolen objectId false }
          match e.client with
          | some ownerId =>
            modifyClientData st ownerId
              (fun cd => { cd with objectIds := updateFn cd.objectIds objectId false })
          | none => st
        else st
      let st := { st with
        objectIdsUsed := updateFn st.objectIdsUsed objectId false
        entitiesById := updateFn st.entitiesById objectId none }
      st.clients.foldl
        (fun acc c =>
          if c.netId = client.netId then acc
          else
            modifyClientData acc c.netId
              (fun cd => { cd with pendingRemovals := updateFn cd.pendingRemovals objectId true }))
        st

/-- `ServerGameState::ProcessCloneRemove` (source lines 1547-1578): ack the
remove unconditionally, then drop the record if the entity has a live owner
other than the sender, else delegate to `RemoveClone`. -/
def ProcessCloneRemove (st : GameState) (client : ClientRef)
    (objectIdBits : List Bool) : GameState :=
  let objectId := bitsToNat (objectIdBits.take 13)
  let st := modifyClientData st client.netId
    (fun cd => { cd with ackRecords := cd.ackRecords ++ [(3, objectId)] })
  let ownerOk : Bool :=
    match GetEntity st objectId with
    | some e =>
      match e.client with
      | some ownerId => ownerId == client.netId
      | none => true
    | none => true
  if ownerOk then RemoveClone st client objectId else st

/-- `ServerGameState::ReassignEntity` (source lines 1233-1287): swap the
owner, move the object id between the owners' id sets, mark the id stolen,
zero the resend/sync stamps and reset every node to frame `m_frameIndex+1`
with an empty `ackedPlayers` bitset. -/
def ReassignEntity (st : GameState) (entityHandle : Nat)
    (targetClient : ClientRef) : GameState :=
  let objectId := entityHandle % 65536
  match GetEntity st objectId with
  | none => st
  | some e =>
    let oldClient := e.client
    let e := { e with client := some targetClient.netId }
    let st :=
      match oldClient with
      | some ownerId =>
        modifyClientData st ownerId
          (fun cd => { cd with objectIds := updateFn cd.objectIds objectId false })
      | none => st
    let st := modifyClientData st targetClient.netId
      (fun cd => { cd with objectIds := updateFn cd.objectIds objectId true })
    let st := { st with objectIdsStolen := updateFn st.objectIdsStolen objectId true }
    let e := { e with
      lastResends := fun _ => 0
      lastSyncs := fun _ => 0
      nodes := e.nodes.map (fun _ =>
        { frameIndex := st.frameIndex + 1, ackedPlayers := fun _ => false }) }
    commitEntity st objectId e

/-- `ServerGameState::ProcessCloneTakeover` (source lines 1501-1545): resolve
the target client (the sender when the 16-bit client id field is 0), skip
duplicate migrations, reject a sender that is not the current owner, and
reassign otherwise. -/
def ProcessCloneTakeover (st : GameState) (client : ClientRef)
    (clientId : Nat) (objectIdBits : List Bool) : GameState :=
  let objectId := bitsToNat (objectIdBits.take 13)
  match GetEntity st objectId with
  | none => st
  | some e =>
    let tgtCl :=
      if clientId ≠ 0 then st.clients.find? (fun c => c.netId == clientId)
      else some client
    match tgtCl with
    | none => st
    | some tgt =>
      let entityClient := e.client
      let dup : Bool :=
        match entityClient with
        | some ownerId => ownerId == tgt.netId
        | none => false
      let wrongOwner : Bool :=
        match entityClient with
        | some ownerId => ownerId != client.netId
        | none => false
      if dup then st
      else if wrongOwner then st
      else if !e.hasSyncTree then st
      else ReassignEntity st e.handle tgt

/-- The distance-cull branch of `Tick` (source lines 886-898), reached for an
entity the interest decision no longer wants at a client that had acked its
creation: set the client's pending removal for the object id, clear
`ackedCreation` and set `didDeletion` for the client's slot. -/
def TickCullEntity (st : GameState) (client : ClientRef) (objectId : Nat) :
    GameState :=
  match st.entitiesById objectId with
  | none => st
  | some e =>
    let st := modifyClientData st client.netId
      (fun cd => { cd with pendingRemovals := updateFn cd.pendingRemovals (e.handle % 65536) true })
    commitEntity st objectId
      { e with
        ackedCreation := updateFn e.ackedCreation client.slotId false
        didDeletion := updateFn e.didDeletion client.slotId true }

/-- The record loop of `ServerGameState::ParseAckPacket` (source lines
1900-1947). The `case 1` (create ack) branch of the switch has no `break`
statement, so after handling the create ack, control falls through into the
`case 3` (remove ack) branch, which reads a further 13-bit object id from
the stream and clears that bit of the sender's `pendingRemovals`. An empty
stream is `IsAtEnd`; tag 7 and unknown tags end the loop. -/
def ParseAckPacketLoop (client : ClientRef) :
    Nat → List Bool → GameState → GameState
  | _, [], st => st
  | 0, _, st => st
  | fuel + 1, bs, st =>
    let r3 := readBits 3 bs
    if r3.1 = 1 then
      let r13 := readBits 13 r3.2
      let st :=
        match GetEntity st r13.1 with
        | some e =>
          if e.hasSyncTree then
            commitEntity st r13.1
              { e with
                nodes := e.nodes.map (fun n =>
                  { n with ackedPlayers := updateFn n.ackedPlayers client.slotId true })
                didDeletion := updateFn e.didDeletion client.slotId false
                ackedCreation := updateFn e.ackedCreation client.slotId true }
          else st
        | none => st
      -- missing break: fall through into the clone-remove branch
      let r13b := readBits 13 r13.2
      let st := modifyClientData st client.netId
        (fun cd => { cd with pendingRemovals := updateFn cd.pendingRemovals r13b.1 false })
      ParseAckPacketLoop client fuel r13b.2 st
    else if r3.1 = 3 then
      let r13 := readBits 13 r3.2
      let st := modifyClientData st client.netId
        (fun cd => { cd with pendingRemovals := updateFn cd.pendingRemovals r13.1 false })
      ParseAckPacketLoop client fuel r13.2 st
    else
      st

/-- `ServerGameState::ParseAckPacket` over a whole inbound ack payload. -/
def ParseAckPacket (st : GameState) (client : ClientRef) (bs : List Bool) :
    GameState :=
  ParseAckPacketLoop client bs.length bs st

/-- The float maximum `std::numeric_limits<float>::max()` used as the default
candidate distance, modelled as an exact rational beyond every reachable
squared distance. -/
def FLT_MAX : ℚ := 2 ^ 128

/-- The focus position `GetPlayerFocusPos` (source lines 275-302) of a
client's player entity. The camera modes read opaque sync-tree camera data;
the default path returns the player position, which is what the model
keeps. A client with no live player entity has no focus. -/
def playerFocusPos (st : GameState) (c : ClientRef) : Option (ℚ × ℚ × ℚ) :=
  match (st.clientData c.netId).playerEntity with
  | none => none
  | some objectId =>
    match st.entitiesById objectId with
    | none => none
    | some pe => some (pe.posX, pe.posY, pe.posZ)

/-- One candidate's distance in `HandleClientDrop` (source lines 1373-1398):
`FLT_MAX` by default, replaced by the squared 3D distance from the orphan's
position to the candidate's focus position when the candidate has a live
player entity and the orphan's `posX` is nonzero. -/
def candidateDistance (st : GameState) (posX posY posZ : ℚ)
    (tgt : ClientRef) : ℚ :=
  match playerFocusPos st tgt with
  | none => FLT_MAX
  | some tgtPos =>
    if posX ≠ 0 then
      (tgtPos.1 - posX) * (tgtPos.1 - posX) +
      (tgtPos.2.1 - posY) * (tgtPos.2.1 - posY) +
      (tgtPos.2.2 - posZ) * (tgtPos.2.2 - posZ)
    else FLT_MAX

/-- Candidate collection in `HandleClientDrop` (source lines 1359-1406):
every connected client other than the dropping one that has a valid slot,
paired with its distance. -/
def collectCandidates (st : GameState) (client : ClientRef)
    (posX posY posZ : ℚ) : List (ℚ × ClientRef) :=
  (st.clients.filter
      (fun t => t.netId != client.netId && t.slotId != 0xFFFFFFFF)).map
    (fun t => (candidateDistance st posX posY posZ t, t))

/-- Insertion step of sorting the candidate list by distance. -/
def insertCand (x : ℚ × ClientRef) : List (ℚ × ClientRef) → List (ℚ × ClientRef)
  | [] => [x]
  | y :: ys => if x.1 ≤ y.1 then x :: y :: ys else y :: insertCand x ys

/-- The `std::sort` over `(distance, client)` candidates (source line 1408),
modelled as insertion sort on the distance component; ties between equal
distances are broken by shared-pointer identity in the source, so only the
distance order is meaningful. -/
def sortCands : List (ℚ × ClientRef) → List (ℚ × ClientRef)
  | [] => []
  | x :: xs => insertCand x (sortCands xs)

/-- What `HandleClientDrop` does with one orphaned entity. -/
inductive DropAction where
  | remove
  | reassign (target : ClientRef)
  deriving DecidableEq, Repr

/-- The per-orphan decision of `HandleClientDrop` (source lines 1408-1428):
sort the candidates, clear them for a `Player` entity, then remove when no
candidate remains or the closest squared distance is at least `300*300`,
else reassign to the closest candidate. -/
def HandleClientDropEntityDecision (st : GameState) (client : ClientRef)
    (e : SyncEntityState) : DropAction :=
  let candidates := sortCands (collectCandidates st client e.posX e.posY e.posZ)
  let candidates :=
    if e.type = NetObjEntityType.Player then [] else candidates
  match candidates with
  | [] => DropAction.remove
  | c :: _ =>
    if c.1 ≥ 300 * 300 then DropAction.remove else DropAction.reassign c.2

/-- The per-orphan decision as the claim words it, written from the spec for
comparison: removal only when there is no candidate or the closest squared
distance strictly exceeds 90000. -/
def claimDropDecision (st : GameState) (client : ClientRef)
    (e : SyncEntityState) : DropAction :=
  let candidates := sortCands (collectCandidates st client e.posX e.posY e.posZ)
  let candidates :=
    if e.type = NetObjEntityType.Player then [] else candidates
  match candidates with
  | [] => DropAction.remove
  | c :: _ =>
    if c.1 > 90000 then DropAction.remove else DropAction.reassign c.2

/-- Applying the decision (source lines 1415-1436): removal goes through
`RemoveClone` with the dropping client, reassignment through
`ReassignEntity` with the chosen candidate. -/
def HandleClientDropEntity (st : GameState) (client : ClientRef)
    (e : SyncEntityState) : GameState :=
  match HandleClientDropEntityDecision st client e with
  | DropAction.remove => RemoveClone st client (e.handle % 65536)
  | DropAction.reassign tgt => ReassignEntity st e.handle tgt

/-- The per-entity ack invariant: no slot has both `ackedCreation` and
`didDeletion` set. -/
def AckBitsExclusive (e : SyncEntityState) : Prop :=
  ∀ s, e.ackedCreation s = true → e.didDeletion s = false

/-- The ack invariant over every live entity of the registry. -/
def AllAckBitsExclusive (st : GameState) : Prop :=
  ∀ objectId e, st.entitiesById objectId = some e → AckBitsExclusive e

theorem exclusive_update_set (acked didDel : Nat → Bool) (slot : Nat)
    (h : ∀ s, acked s = true → didDel s = false) :
    ∀ s, updateFn acked slot true s = true → updateFn didDel slot false s = false := by
  intro s hs
  by_cases hsl : s = slot
  · simp [updateFn, hsl]
  · simp only [updateFn, if_neg hsl] at hs ⊢
    exact h s hs

theorem exclusive_update_cull (acked didDel : Nat → Bool) (slot : Nat)
    (h : ∀ s, acked s = true → didDel s = false) :
    ∀ s, updateFn acked slot false s = true → updateFn didDel slot true s = false := by
  intro s hs
  by_cases hsl : s = slot
  · subst hsl; simp [updateFn] at hs
  · simp only [updateFn, if_neg hsl] at hs ⊢
    exact h s hs

theorem ackBitsExclusive_writeAckBits (e : SyncEntityState) (slot : Nat)
    (h : AckBitsExclusive e) : AckBitsExclusive (writeAckBits e slot) :=
  exclusive_update_set e.ackedCreation e.didDeletion slot h

theorem applySyncPayload_ackedCreation (e : SyncEntityState) (pt ts : Nat)
    (p : List Bool) : (applySyncPayload e pt ts p).ackedCreation = e.ackedCreation := by
  simp only [applySyncPayload]
  split <;> (try split) <;> rfl

theorem applySyncPayload_didDeletion (e : SyncEntityState) (pt ts : Nat)
    (p : List Bool) : (applySyncPayload e pt ts p).didDeletion = e.didDeletion := by
  simp only [applySyncPayload]
  split <;> (try split) <;> rfl

theorem ackBitsExclusive_of_fields {e e' : SyncEntityState}
    (hA : e'.ackedCreation = e.ackedCreation)
    (hD : e'.didDeletion = e.didDeletion)
    (h : AckBitsExclusive e) : AckBitsExclusive e' := by
  intro s hs
  rw [hD]
  exact h s (by rw [← hA]; exact hs)

theorem allExclusive_modifyClientData (st : GameState) (netId : Nat)
    (f : GameStateClientData → GameStateClientData)
    (h : AllAckBitsExclusive st) :
    AllAckBitsExclusive (modifyClientData st netId f) :=
  fun objectId e he => h objectId e he

theorem allExclusive_commitEntity (st : GameState) (objectId : Nat)
    (e : SyncEntityState) (hst : AllAckBitsExclusive st)
    (he : AckBitsExclusive e) :
    AllAckBitsExclusive (commitEntity st objectId e) := by
  intro j e' hj
  by_cases hjo : j = objectId
  · subst hjo
    simp only [commitEntity, updateFn, if_pos rfl] at hj
    cases hj
    exact he
  · simp only [commitEntity, updateFn, if_neg hjo] at hj
    exact hst j e' hj

theorem allExclusive_erase (st : GameState) (objectId : Nat)
    (u : Nat → Bool) (hst : AllAckBitsExclusive st) :
    AllAckBitsExclusive
      { st with objectIdsUsed := u
                entitiesById := updateFn st.entitiesById objectId none } := by
  intro j e' hj
  by_cases hjo : j = objectId
  · subst hjo; simp [updateFn] at hj
  · simp only [updateFn, if_neg hjo] at hj
    exact hst j e' hj

theorem allExclusive_setIdBits (st : GameState) (u v w : Nat → Bool)
    (hst : AllAckBitsExclusive st) :
    AllAckBitsExclusive
      { st with objectIdsUsed := u, objectIdsSent := v, objectIdsStolen := w } :=
  fun objectId e he => hst objectId e he

theorem allExclusive_foldl {β : Type} (l : List β)
    (g : GameState → β → GameState)
    (hg : ∀ st b, AllAckBitsExclusive st → AllAckBitsExclusive (g st b)) :
    ∀ st, AllAckBitsExclusive st → AllAckBitsExclusive (l.foldl g st) := by
  induction l with
  | nil => intro st h; exact h
  | cons b bs ih =>
    intro st h
    exact ih (g st b) (hg st b h)

theorem allExclusive_resetPendingRemovalsAll (st : GameState) (objectId : Nat)
    (hst : AllAckBitsExclusive st) :
    AllAckBitsExclusive (resetPendingRemovalsAll st objectId) := by
  unfold resetPendingRemovalsAll
  exact allExclusive_foldl st.clients _
    (fun st' c h => allExclusive_modifyClientData st' c.netId _ h) st hst

theorem GetEntity_entitiesById {st : GameState} {objectId : Nat}
    {e : SyncEntityState} (h : GetEntity st objectId = some e) :
    st.entitiesById objectId = some e := by
  unfold GetEntity at h
  split at h
  · exact absurd h (by simp)
  · exact h

theorem allExclusive_common (st : GameState) (client : ClientRef)
    (pt : Nat) (payload : List Bool) (objectId ts : Nat)
    (e : SyncEntityState) (ch : Bool)
    (hst : AllAckBitsExclusive st) (he : AckBitsExclusive e) :
    AllAckBitsExclusive
      (ProcessClonePacketCommon st client pt payload objectId ts e ch).1 := by
  unfold ProcessClonePacketCommon
  have hst1 : AllAckBitsExclusive (if ch = true then commitEntity st objectId e else st) := by
    split
    · exact allExclusive_commitEntity st objectId e hst he
    · exact hst
  have hwe : AckBitsExclusive (writeAckBits e client.slotId) :=
    ackBitsExclusive_writeAckBits e client.slotId he
  revert hst1
  generalize (if ch = true then commitEntity st objectId e else st) = st1
  intro hst1
  have hap : AckBitsExclusive
      (applySyncPayload (writeAckBits e client.slotId) pt ts payload) :=
    ackBitsExclusive_of_fields
      (applySyncPayload_ackedCreation _ _ _ _)
      (applySyncPayload_didDeletion _ _ _ _) hwe
  dsimp only
  repeat' split
  all_goals
    first
      | exact allExclusive_commitEntity _ objectId _ hst1 hwe
      | exact allExclusive_resetPendingRemovalsAll _ objectId
          (allExclusive_modifyClientData _ client.netId _
            (allExclusive_commitEntity _ objectId _ hst1 hap))
      | exact allExclusive_modifyClientData _ client.netId _
          (allExclusive_commitEntity _ objectId _ hst1 hap)
      | exact allExclusive_resetPendingRemovalsAll _ objectId
          (allExclusive_commitEntity _ objectId _ hst1 hap)
      | exact allExclusive_commitEntity _ objectId _ hst1 hap

theorem allExclusive_of_entities {st st' : GameState}
    (h : st'.entitiesById = st.entitiesById) (hst : AllAckBitsExclusive st) :
    AllAckBitsExclusive st' := by
  intro oid e he
  exact hst oid e (h ▸ he)

theorem freshEntity_exclusive (t : NetObjEntityType) (cnid fi oid : Nat) :
    AckBitsExclusive (freshEntity t cnid fi oid) := by
  intro s hs
  simp [freshEntity] at hs

theorem GetEntity_modifyClientData (st : GameState) (netId : Nat)
    (f : GameStateClientData → GameStateClientData) (objectId : Nat) :
    GetEntity (modifyClientData st netId f) objectId = GetEntity st objectId := rfl

theorem allExclusive_ProcessClonePacket (st : GameState) (client : ClientRef)
    (pt : Nat) (msg : CloneMsg) (hst : AllAckBitsExclusive st) :
    AllAckBitsExclusive (ProcessClonePacket st client pt msg).1 := by
  unfold ProcessClonePacket
  dsimp only
  split
  · exact allExclusive_of_entities rfl hst
  · rename_i e ch heq
    refine allExclusive_common _ _ _ _ _ _ _ _ (allExclusive_of_entities rfl hst) ?_
    split at heq
    · split at heq
      · cases heq
        exact freshEntity_exclusive _ _ _ _
      · exact absurd heq (by simp)
    · split at heq
      · exact absurd heq (by simp)
      · rcases Option.map_eq_some'.mp heq with ⟨a, ha, hae⟩
        cases hae
        exact hst _ _ (GetEntity_entitiesById ha)

theorem allExclusive_ProcessCloneCreate (st : GameState) (client : ClientRef)
    (msg : CloneMsg) (hst : AllAckBitsExclusive st) :
    AllAckBitsExclusive (ProcessCloneCreate st client msg) := by
  unfold ProcessCloneCreate
  exact allExclusive_of_entities rfl
    (allExclusive_ProcessClonePacket st client 1 msg hst)

theorem allExclusive_ProcessCloneSync (st : GameState) (client : ClientRef)
    (msg : CloneMsg) (hst : AllAckBitsExclusive st) :
    AllAckBitsExclusive (ProcessCloneSync st client msg) := by
  unfold ProcessCloneSync
  exact allExclusive_of_entities rfl
    (allExclusive_ProcessClonePacket st client 2 msg hst)

theorem allExclusive_RemoveClone (st : GameState) (client : ClientRef)
    (objectId : Nat) (hst : AllAckBitsExclusive st) :
    AllAckBitsExclusive (RemoveClone st client objectId) := by
  unfold RemoveClone
  split
  · exact hst
  · rename_i e heq
    split
    · exact hst
    · dsimp only
      refine allExclusive_foldl _ _ ?_ _ ?_
      · intro st' b h
        split
        · exact h
        · exact allExclusive_of_entities rfl h
      · refine allExclusive_erase _ _ _ ?_
        split
        · split
          · exact allExclusive_of_entities rfl hst
          · exact allExclusive_of_entities rfl hst
        · exact hst

theorem allExclusive_ReassignEntity (st : GameState) (entityHandle : Nat)
    (tgt : ClientRef) (hst : AllAckBitsExclusive st) :
    AllAckBitsExclusive (ReassignEntity st entityHandle tgt) := by
  unfold ReassignEntity
  dsimp only
  split
  · exact hst
  · rename_i e heq
    have he : AckBitsExclusive e := hst _ _ (GetEntity_entitiesById heq)
    repeat' split
    all_goals
      exact allExclusive_commitEntity _ _ _ (allExclusive_of_entities rfl hst)
        (ackBitsExclusive_of_fields rfl rfl he)

theorem allExclusive_ProcessCloneRemovePkt (st : GameState) (client : ClientRef)
    (objectIdBits : List Bool) (hst : AllAckBitsExclusive st) :
    AllAckBitsExclusive (ProcessCloneRemove st client objectIdBits) := by
  unfold ProcessCloneRemove
  dsimp only
  split
  · exact allExclusive_RemoveClone _ _ _ (allExclusive_of_entities rfl hst)
  · exact allExclusive_of_entities rfl hst

theorem allExclusive_ProcessCloneTakeover (st : GameState) (client : ClientRef)
    (clientId : Nat) (objectIdBits : List Bool) (hst : AllAckBitsExclusive st) :
    AllAckBitsExclusive (ProcessCloneTakeover st client clientId objectIdBits) := by
  unfold ProcessCloneTakeover
  dsimp only
  repeat' split
  all_goals
    first
      | exact hst
      | exact allExclusive_ReassignEntity _ _ _ hst

theorem allExclusive_TickCullEntity (st : GameState) (client : ClientRef)
    (objectId : Nat) (hst : AllAckBitsExclusive st) :
    AllAckBitsExclusive (TickCullEntity st client objectId) := by
  unfold TickCullEntity
  split
  · exact hst
  · rename_i e heq
    exact allExclusive_commitEntity _ _ _ (allExclusive_of_entities rfl hst)
      (exclusive_update_cull _ _ client.slotId (hst _ _ heq))

theorem allExclusive_ParseAckLoop (client : ClientRef) :
    ∀ (fuel : Nat) (bs : List Bool) (st : GameState),
      AllAckBitsExclusive st →
      AllAckBitsExclusive (ParseAckPacketLoop client fuel bs st) := by
  intro fuel
  induction fuel with
  | zero =>
    intro bs st h
    cases bs <;> simpa [ParseAckPacketLoop] using h
  | succ n ih =>
    intro bs st h
    cases bs with
    | nil => simpa [ParseAckPacketLoop] using h
    | cons b bt =>
      simp only [ParseAckPacketLoop]
      repeat' split
      all_goals
        first
          | exact h
          | exact ih _ _ (allExclusive_of_entities rfl h)
          | (rename_i e heq _
             exact ih _ _ (allExclusive_of_entities rfl
               (allExclusive_commitEntity _ _ _ h
                 (exclusive_update_set _ _ client.slotId
                   (h _ _ (GetEntity_entitiesById heq))))))

/-- Big-endian encoding of a `w`-bit field, the inverse of `bitsToNat` on
`w`-bit values; used to build concrete wire inputs. -/
def natToBits (w n : Nat) : List Bool :=
  (List.range w).map (fun i => n.testBit (w - 1 - i))

/-- A client's sync data before any packet arrived. -/
def emptyClientData : GameStateClientData :=
  { ackRecords := []
    objectIds := fun _ => false
    playerEntity := none
    playerId := none
    pendingRemovals := fun _ => false
    syncTs := 0
    timestampData := none }

/-- A plain live entity fixture: owner as given, a one-node sync tree, all
per-slot bits clear. -/
def baseEntity (t : NetObjEntityType) (owner : Option Nat) (objectId : Nat) :
    SyncEntityState :=
  { handle := MakeEntityHandle 0 objectId
    type := t
    client := owner
    timestamp := 0
    ackedCreation := fun _ => false
    didDeletion := fun _ => false
    lastResends := fun _ => 0
    lastSyncs := fun _ => 0
    hasSyncTree := true
    nodes := [{ frameIndex := 0, ackedPlayers := fun _ => false }]
    parsedPayloads := []
    deleting := false
    posX := 0
    posY := 0
    posZ := 0 }

/-- A registry-empty engine state fixture. -/
def emptyState : GameState :=
  { entitiesById := fun _ => none
    objectIdsUsed := fun _ => false
    objectIdsSent := fun _ => false
    objectIdsStolen := fun _ => false
    clientData := fun _ => emptyClientData
    clients := []
    frameIndex := 0 }

def cl2 : ClientRef := { netId := 3, slotId := 1 }

def st2 : GameState :=
  { emptyState with
    entitiesById := fun n =>
      if n = 5 then some (baseEntity NetObjEntityType.Automobile (some 3) 5)
      else none
    clients := [cl2] }

def msg2 : CloneMsg :=
  { objectIdBits := natToBits 13 5
    objectType := NetObjEntityType.Automobile
    payload := [true, false] }

theorem st2_exclusive : AllAckBitsExclusive st2 := by
  intro oid e he s hs
  simp only [st2, emptyState] at he
  split at he
  · cases he
    simp [baseEntity] at hs
  · cases he

/-- C2: for every live entity and every client slot, `ackedCreation` and
`didDeletion` are never both set after any single ingress step completes:
each inbound clone record (create, sync, remove, takeover), a whole inbound
ack payload, and the tick's distance cull all preserve the exclusivity
invariant, because every operation that sets one of the two bits clears the
other. -/
theorem C2_ackBits_exclusive_after_ingress :
    (∀ (st : GameState) (client : ClientRef) (msg : CloneMsg),
      AllAckBitsExclusive st →
      AllAckBitsExclusive (ProcessCloneCreate st client msg)) ∧
    (∀ (st : GameState) (client : ClientRef) (msg : CloneMsg),
      AllAckBitsExclusive st →
      AllAckBitsExclusive (ProcessCloneSync st client msg)) ∧
    (∀ (st : GameState) (client : ClientRef) (bits : List Bool),
      AllAckBitsExclusive st →
      AllAckBitsExclusive (ProcessCloneRemove st client bits)) ∧
    (∀ (st : GameState) (client : ClientRef) (clientId : Nat) (bits : List Bool),
      AllAckBitsExclusive st →
      AllAckBitsExclusive (ProcessCloneTakeover st client clientId bits)) ∧
    (∀ (st : GameState) (client : ClientRef) (bits : List Bool),
      AllAckBitsExclusive st →
      AllAckBitsExclusive (ParseAckPacket st client bits)) ∧
    (∀ (st : GameState) (client : ClientRef) (objectId : Nat),
      AllAckBitsExclusive st →
      AllAckBitsExclusive (TickCullEntity st client objectId)) :=
  ⟨allExclusive_ProcessCloneCreate,
   allExclusive_ProcessCloneSync,
   allExclusive_ProcessCloneRemovePkt,
   allExclusive_ProcessCloneTakeover,
   fun st client bits h => allExclusive_ParseAckLoop client bits.length bits st h,
   allExclusive_TickCullEntity⟩

/-- Witness for C2 at a concrete state: one live automobile owned by client 3
with clean bitsets, through a sync record from its owner. -/
theorem C2_ackBits_exclusive_after_ingress_witness :
    AllAckBitsExclusive st2 ∧
    AllAckBitsExclusive (ProcessCloneSync st2 cl2 msg2) :=
  ⟨st2_exclusive,
   C2_ackBits_exclusive_after_ingress.2.1 st2 cl2 msg2 st2_exclusive⟩

/-- Counterexample for C9: at a payload of 1080 bytes the LZ4 upper bound is
exactly 1100 bytes, and `MaybeFlushBuffer` does not flush, because its
comparison is strictly greater than 1100; the claim says it flushes at
exactly 1100. -/
theorem C9_exact_1100_no_flush :
    LZ4_compressBound 1080 = 1100 ∧ MaybeFlushBuffer_sends 1080 = false := by
  constructor
  · decide
  · decide

/-- C9 (amended): `MaybeFlushBuffer` flushes exactly when the LZ4 upper
bound of the current payload length strictly exceeds 1100 bytes,
equivalently when the payload length is at least 1081 bytes; at an upper
bound of exactly 1100 bytes it does not flush. -/
theorem C9_maybeFlush_iff (n : Nat) :
    MaybeFlushBuffer_sends n = true ↔ 1081 ≤ n := by
  rcases le_or_lt 1081 n with h | h
  · have h4 : 4 ≤ n / 255 :=
      le_trans (by norm_num) (Nat.div_le_div_right h)
    simp only [MaybeFlushBuffer_sends, FlushBuffer_sends, LZ4_compressBound]
    rw [if_pos (by omega)]
    constructor
    · intro _
      exact h
    · intro _
      exact decide_eq_true (by omega)
  · have h4 : n / 255 ≤ 4 :=
      le_trans (Nat.div_le_div_right (show n ≤ 1080 by omega)) (by norm_num)
    simp only [MaybeFlushBuffer_sends, FlushBuffer_sends, LZ4_compressBound]
    rw [if_neg (by omega)]
    constructor
    · intro hh
      exact absurd hh (by simp)
    · intro hh
      omega

/-- Counterexample for C6: an entity outside the frustum whose squared
distance to the player focus is 300000 (beyond the 500-unit tier) gets a
500 ms delay from the code, while the claim's frustum-first rule says
150 ms: the distance tiering is not restricted to the in-frustum branch. -/
theorem C6_out_of_frustum_far_overridden :
    computeSyncDelay true true false true 300000 = 500 ∧
    claimSyncDelay false 300000 = 150 := by
  constructor
  · norm_num [computeSyncDelay]
  · norm_num [claimSyncDelay]

/-- C6 (amended): with `radiusFrequency` enabled and a sync tree present,
an entity outside the frustum gets the 150 ms delay only when the distance
tiering does not apply (no player focus, or squared distance at most 250
squared); the distance tiers of 500 ms beyond 500 squared and 250 ms beyond
250 squared apply regardless of the frustum result and override the
out-of-frustum value, and inside the frustum the remaining delay is 50 ms. -/
theorem C6_syncDelay_characterization :
    (∀ (inFrustum hasPlayer : Bool) (dist2 : ℚ), hasPlayer = true →
      dist2 > 250000 →
      computeSyncDelay true true inFrustum hasPlayer dist2 = 500) ∧
    (∀ (inFrustum hasPlayer : Bool) (dist2 : ℚ), hasPlayer = true →
      dist2 > 62500 → dist2 ≤ 250000 →
      computeSyncDelay true true inFrustum hasPlayer dist2 = 250) ∧
    (∀ (hasPlayer : Bool) (dist2 : ℚ), (hasPlayer = true → dist2 ≤ 62500) →
      computeSyncDelay true true false hasPlayer dist2 = 150) ∧
    (∀ (hasPlayer : Bool) (dist2 : ℚ), (hasPlayer = true → dist2 ≤ 62500) →
      computeSyncDelay true true true hasPlayer dist2 = 50) := by
  refine ⟨?_, ?_, ?_, ?_⟩
  · intro inF hp d hhp h2
    subst hhp
    simp only [computeSyncDelay]
    norm_num
    split_ifs <;> first | rfl | linarith | (intro h3; linarith) | (exfalso; linarith)
  · intro inF hp d hhp h2 h3
    subst hhp
    simp only [computeSyncDelay]
    norm_num
    split_ifs <;> first | rfl | linarith | (intro h3; linarith) | (exfalso; linarith)
  · intro hp d hd
    cases hp with
    | false =>
      simp [computeSyncDelay]
    | true =>
      have hd62 := hd rfl
      simp only [computeSyncDelay]
      norm_num
      split_ifs <;> first | rfl | linarith | (intro h3; linarith) | (exfalso; linarith)
  · intro hp d hd
    cases hp with
    | false =>
      simp [computeSyncDelay]
    | true =>
      have hd62 := hd rfl
      simp only [computeSyncDelay]
      norm_num
      split_ifs <;> first | rfl | linarith | (intro h3; linarith) | (exfalso; linarith)

/-- Witness for C6: out of frustum with player focus at squared distance
300000, the delay is 500 ms. -/
theorem C6_syncDelay_characterization_witness :
    ((300000 : ℚ) > 250000) ∧
    computeSyncDelay true true false true 300000 = 500 :=
  ⟨by norm_num,
   C6_syncDelay_characterization.1 false true 300000 rfl (by norm_num)⟩

/-- Projection: the `ackedCreation` bit of the live entity at an object id. -/
def ackedAt (st : GameState) (objectId slot : Nat) : Option Bool :=
  (st.entitiesById objectId).map (fun e => e.ackedCreation slot)

/-- Projection: the `didDeletion` bit of the live entity at an object id. -/
def didDelAt (st : GameState) (objectId slot : Nat) : Option Bool :=
  (st.entitiesById objectId).map (fun e => e.didDeletion slot)

/-- Projection: the per-node `ackedPlayers` bits of one slot, in node order. -/
def nodeAckedAt (st : GameState) (objectId slot : Nat) : Option (List Bool) :=
  (st.entitiesById objectId).map (fun e => e.nodes.map (fun n => n.ackedPlayers slot))

/-- Projection: the timestamp of the live entity at an object id. -/
def timestampAt (st : GameState) (objectId : Nat) : Option Nat :=
  (st.entitiesById objectId).map (fun e => e.timestamp)

/-- Projection: the parse history of the live entity at an object id. -/
def parsedAt (st : GameState) (objectId : Nat) : Option (List (List Bool)) :=
  (st.entitiesById objectId).map (fun e => e.parsedPayloads)

/-- Projection: the per-slot resend stamp of the live entity at an object id. -/
def lastResendAt (st : GameState) (objectId slot : Nat) : Option Nat :=
  (st.entitiesById objectId).map (fun e => e.lastResends slot)

/-- Projection: whether a live entity occupies an object id. -/
def existsAt (st : GameState) (objectId : Nat) : Bool :=
  (st.entitiesById objectId).isSome

def cl1 : ClientRef := { netId := 7, slotId := 2 }

def st1 : GameState :=
  { emptyState with
    entitiesById := fun n =>
      if n = 5 then some (baseEntity NetObjEntityType.Ped (some 9) 5) else none
    clientData := fun n =>
      if n = 7 then
        { emptyClientData with pendingRemovals := fun i => i = 9 }
      else emptyClientData
    clients := [cl1] }

/-- The failing ack payload for C1: one create-ack record for object id 5,
whose next 13 bits hold the value 9, then the end tag. -/
def bits1 : List Bool :=
  natToBits 3 1 ++ natToBits 13 5 ++ natToBits 13 9 ++ natToBits 3 7

/-- C1: the create-ack record does set the sender's ack state on the live
entity - `ackedCreation[slot]` set, `didDeletion[slot]` cleared, every
node's `ackedPlayers[slot]` set - but, against the claim, the parser also
mutates the sender's `pendingRemovals`: the `case 1` switch branch has no
`break`, so control falls through into the remove-ack branch, reads the
next 13 bits (here the value 9) as a second object id and clears
`pendingRemovals[9]`, which was set before the packet arrived. -/
theorem C1_create_ack_falls_through_to_remove_ack :
    ackedAt (ParseAckPacket st1 cl1 bits1) 5 2 = some true ∧
    didDelAt (ParseAckPacket st1 cl1 bits1) 5 2 = some false ∧
    nodeAckedAt (ParseAckPacket st1 cl1 bits1) 5 2 = some [true] ∧
    (st1.clientData 7).pendingRemovals 9 = true ∧
    ((ParseAckPacket st1 cl1 bits1).clientData 7).pendingRemovals 9 = false := by
  refine ⟨by decide, by decide, by decide, by decide, by decide⟩

def cl3 : ClientRef := { netId := 1, slotId := 0 }

def ent3 : SyncEntityState :=
  { baseEntity NetObjEntityType.Automobile (some 1) 5 with
    didDeletion := fun s => s = 0 }

def st3 : GameState :=
  { emptyState with
    entitiesById := fun n => if n = 5 then some ent3 else none
    clients := [cl3] }

def msg3 : CloneMsg :=
  { objectIdBits := natToBits 13 5
    objectType := NetObjEntityType.Automobile
    payload := [true] }

/-- Counterexample for C3: a duplicate create for live object id 5 - sent by
the very owner, with a matching type - is dropped by the unconditional
return of the duplicate-create branch before the ack-bit write is reached:
the sender's `ackedCreation[0]` stays clear and `didDeletion[0]` stays set,
while the claim requires them to be set and cleared respectively. -/
theorem C3_duplicate_create_does_not_touch_ack_bits :
    (ProcessClonePacket st3 cl3 1 msg3).2 = none ∧
    ackedAt st3 5 0 = some false ∧
    didDelAt st3 5 0 = some true ∧
    ackedAt (ProcessClonePacket st3 cl3 1 msg3).1 5 0 = some false ∧
    didDelAt (ProcessClonePacket st3 cl3 1 msg3).1 5 0 = some true := by
  refine ⟨by decide, by decide, by decide, by decide, by decide⟩

/-- C3 (amended): a duplicate create - an inbound tag-1 record whose object
id already holds a live entity - is dropped whether or not the record's
type matches the entity's type (the mismatch is additionally logged): the
registry, the entity's `ackedCreation`/`didDeletion` bits, the id pools,
every `pendingRemovals` bitset and every ack buffer are left unchanged, and
`outObjectId` is never written. -/
theorem C3_duplicate_create_drops_unchanged (st : GameState)
    (client : ClientRef) (msg : CloneMsg) (e : SyncEntityState)
    (he : GetEntity st (bitsToNat (msg.objectIdBits.take 13)) = some e)
    (hc : e.client.isSome = true) :
    (ProcessClonePacket st client 1 msg).2 = none ∧
    (ProcessClonePacket st client 1 msg).1.entitiesById = st.entitiesById ∧
    (ProcessClonePacket st client 1 msg).1.objectIdsUsed = st.objectIdsUsed ∧
    (ProcessClonePacket st client 1 msg).1.objectIdsSent = st.objectIdsSent ∧
    (∀ n, ((ProcessClonePacket st client 1 msg).1.clientData n).pendingRemovals
        = (st.clientData n).pendingRemovals) ∧
    (∀ n, ((ProcessClonePacket st client 1 msg).1.clientData n).ackRecords
        = (st.clientData n).ackRecords) := by
  unfold ProcessClonePacket
  dsimp only
  simp only [GetEntity_modifyClientData, he, hc, Bool.not_true, Bool.false_eq_true,
    if_false, if_true]
  norm_num
  refine ⟨rfl, rfl, rfl, ?_, ?_⟩ <;>
    · intro n
      by_cases hn : n = client.netId <;>
        simp [modifyClientData, updateFn, hn]

def cl4 : ClientRef := { netId := 2, slotId := 3 }

def ent4 : SyncEntityState :=
  { baseEntity NetObjEntityType.Automobile (some 1) 5 with
    didDeletion := fun s => s = 3
    timestamp := 42
    lastResends := fun s => if s = 3 then 17 else 0 }

def st4 : GameState :=
  { emptyState with
    entitiesById := fun n => if n = 5 then some ent4 else none
    clients := [cl4] }

def msg4 : CloneMsg :=
  { objectIdBits := natToBits 13 5
    objectType := NetObjEntityType.Automobile
    payload := [true, true] }

/-- Counterexample for C4: a sync record for live object id 5, owned by
client 1 but sent by client 2 (slot 3), is dropped without parsing - the
parse history, the timestamp and the resend stamp stay put - yet the
sender's per-slot bits on the entity do change: `ackedCreation[3]` flips to
set and `didDeletion[3]` flips to clear, because the ack-bit write at the
top of the common path runs before the ownership check. The claim requires
those bits to be unchanged. -/
theorem C4_wrong_owner_sync_mutates_ack_bits :
    ackedAt st4 5 3 = some false ∧
    didDelAt st4 5 3 = some true ∧
    ackedAt (ProcessClonePacket st4 cl4 2 msg4).1 5 3 = some true ∧
    didDelAt (ProcessClonePacket st4 cl4 2 msg4).1 5 3 = some false ∧
    parsedAt (ProcessClonePacket st4 cl4 2 msg4).1 5 = some [] ∧
    timestampAt (ProcessClonePacket st4 cl4 2 msg4).1 5 = some 42 ∧
    lastResendAt (ProcessClonePacket st4 cl4 2 msg4).1 5 3 = some 17 := by
  refine ⟨by decide, by decide, by decide, by decide, by decide, by decide,
    by decide⟩

/-- C4 (amended): a sync record for a live entity owned by another client is
dropped - the sync tree is not parsed, `timestamp`, `lastResends`,
`lastSyncs` and the nodes are unchanged, no other registry slot changes,
`pendingRemovals` and the ack buffers are untouched and `outObjectId` is
not written - but before the ownership check the engine already writes the
sender's ack bits, so the entity is left with `ackedCreation[senderSlot]`
set and `didDeletion[senderSlot]` cleared. -/
theorem ProcessClonePacket_sync_valid (st : GameState) (client : ClientRef)
    (msg : CloneMsg) (e : SyncEntityState)
    (he : GetEntity st (bitsToNat (msg.objectIdBits.take 13)) = some e)
    (hv : e.client.isSome = true) :
    ProcessClonePacket st client 2 msg =
      ProcessClonePacketCommon
        (modifyClientData
          (modifyClientData st client.netId (fun cd =>
            { cd with
              timestampData :=
                some (cd.timestampData.getD
                  (Int.ofNat (st.clientData client.netId).syncTs)) }))
          client.netId (fun cd => { cd with playerId := some 0 }))
        client 2 msg.payload (bitsToNat (msg.objectIdBits.take 13))
        (st.clientData client.netId).syncTs e false := by
  unfold ProcessClonePacket
  dsimp only
  simp [GetEntity_modifyClientData, he, hv]

theorem ProcessClonePacketCommon_wrong_owner (st : GameState)
    (client : ClientRef) (pt : Nat) (payload : List Bool) (objectId ts : Nat)
    (e : SyncEntityState) (ownerId : Nat) (ho : e.client = some ownerId)
    (hne : ownerId ≠ client.netId) :
    ProcessClonePacketCommon st client pt payload objectId ts e false =
      (commitEntity st objectId (writeAckBits e client.slotId), none) := by
  unfold ProcessClonePacketCommon
  dsimp only
  have hcl : (writeAckBits e client.slotId).client = some ownerId := ho
  simp [hcl, hne]

/-- C4 (amended): a sync record for a live entity owned by another client is
dropped - the sync tree is not parsed, `timestamp`, `lastResends`,
`lastSyncs` and the nodes are unchanged, no other registry slot changes,
`pendingRemovals` and the ack buffers are untouched and `outObjectId` is
not written - but before the ownership check the engine already writes the
sender's ack bits, so the entity is left with `ackedCreation[senderSlot]`
set and `didDeletion[senderSlot]` cleared. -/
theorem C4_wrong_owner_sync_drops_after_ack_bit_write (st : GameState)
    (client : ClientRef) (msg : CloneMsg) (e : SyncEntityState)
    (ownerId : Nat)
    (he : GetEntity st (bitsToNat (msg.objectIdBits.take 13)) = some e)
    (ho : e.client = some ownerId)
    (hne : ownerId ≠ client.netId) :
    (ProcessClonePacket st client 2 msg).2 = none ∧
    (ProcessClonePacket st client 2 msg).1.entitiesById
        (bitsToNat (msg.objectIdBits.take 13))
      = some (writeAckBits e client.slotId) ∧
    (∀ j, j ≠ bitsToNat (msg.objectIdBits.take 13) →
      (ProcessClonePacket st client 2 msg).1.entitiesById j = st.entitiesById j) ∧
    (writeAckBits e client.slotId).ackedCreation client.slotId = true ∧
    (writeAckBits e client.slotId).didDeletion client.slotId = false ∧
    (writeAckBits e client.slotId).timestamp = e.timestamp ∧
    (writeAckBits e client.slotId).parsedPayloads = e.parsedPayloads ∧
    (writeAckBits e client.slotId).lastResends = e.lastResends ∧
    (writeAckBits e client.slotId).lastSyncs = e.lastSyncs ∧
    (writeAckBits e client.slotId).nodes = e.nodes ∧
    (∀ n, ((ProcessClonePacket st client 2 msg).1.clientData n).pendingRemovals
        = (st.clientData n).pendingRemovals) ∧
    (∀ n, ((ProcessClonePacket st client 2 msg).1.clientData n).ackRecords
        = (st.clientData n).ackRecords) := by
  have hv : e.client.isSome = true := by rw [ho]; rfl
  rw [ProcessClonePacket_sync_valid st client msg e he hv,
    ProcessClonePacketCommon_wrong_owner _ _ _ _ _ _ _ ownerId ho hne]
  refine ⟨rfl, ?_, ?_, ?_, ?_, rfl, rfl, rfl, rfl, rfl, ?_, ?_⟩
  · simp [commitEntity, updateFn]
  · intro j hj
    simp [commitEntity, updateFn, hj, modifyClientData]
  · simp [writeAckBits, updateFn]
  · simp [writeAckBits, updateFn]
  · intro n
    by_cases hn : n = client.netId <;>
      simp [commitEntity, modifyClientData, updateFn, hn]
  · intro n
    by_cases hn : n = client.netId <;>
      simp [commitEntity, modifyClientData, updateFn, hn]

/-- Witness for C3 at the duplicate-create fixture. -/
theorem C3_duplicate_create_drops_unchanged_witness :
    GetEntity st3 (bitsToNat (msg3.objectIdBits.take 13)) = some ent3 ∧
    ent3.client.isSome = true ∧
    (ProcessClonePacket st3 cl3 1 msg3).2 = none :=
  ⟨rfl, rfl, (C3_duplicate_create_drops_unchanged st3 cl3 msg3 ent3 rfl rfl).1⟩

/-- Witness for C4 at the wrong-owner sync fixture. -/
theorem C4_wrong_owner_sync_drops_after_ack_bit_write_witness :
    GetEntity st4 (bitsToNat (msg4.objectIdBits.take 13)) = some ent4 ∧
    ent4.client = some 1 ∧
    (1 : Nat) ≠ cl4.netId ∧
    (ProcessClonePacket st4 cl4 2 msg4).1.entitiesById
        (bitsToNat (msg4.objectIdBits.take 13))
      = some (writeAckBits ent4 cl4.slotId) :=
  ⟨rfl, rfl, by decide,
   (C4_wrong_owner_sync_drops_after_ack_bit_write st4 cl4 msg4 ent4 1 rfl rfl
     (by decide)).2.1⟩

theorem foldl_preserves {β γ : Type} (p : GameState → γ) (l : List β)
    (g : GameState → β → GameState)
    (hg : ∀ st b, p (g st b) = p st) :
    ∀ st, p (l.foldl g st) = p st := by
  induction l with
  | nil => intro st; rfl
  | cons b bs ih =>
    intro st
    rw [List.foldl_cons, ih, hg]

theorem resetPendingRemovalsAll_entitiesById (st : GameState) (objectId : Nat) :
    (resetPendingRemovalsAll st objectId).entitiesById = st.entitiesById := by
  unfold resetPendingRemovalsAll
  refine foldl_preserves (fun s => s.entitiesById) _ _ ?_ st
  intro s b
  rfl

theorem resetPendingRemovalsAll_objectIdsUsed (st : GameState) (objectId : Nat) :
    (resetPendingRemovalsAll st objectId).objectIdsUsed = st.objectIdsUsed := by
  unfold resetPendingRemovalsAll
  refine foldl_preserves (fun s => s.objectIdsUsed) _ _ ?_ st
  intro s b
  rfl

theorem resetPendingRemovalsAll_objectIdsSent (st : GameState) (objectId : Nat) :
    (resetPendingRemovalsAll st objectId).objectIdsSent = st.objectIdsSent := by
  unfold resetPendingRemovalsAll
  refine foldl_preserves (fun s => s.objectIdsSent) _ _ ?_ st
  intro s b
  rfl

theorem ProcessClonePacket_objectIdsUsed (st : GameState) (client : ClientRef)
    (pt : Nat) (msg : CloneMsg) :
    (ProcessClonePacket st client pt msg).1.objectIdsUsed = st.objectIdsUsed := by
  unfold ProcessClonePacket ProcessClonePacketCommon
  dsimp only
  repeat' split
  all_goals first
    | rfl
    | (rw [resetPendingRemovalsAll_objectIdsUsed]; rfl)

theorem ProcessClonePacket_objectIdsSent (st : GameState) (client : ClientRef)
    (pt : Nat) (msg : CloneMsg) :
    (ProcessClonePacket st client pt msg).1.objectIdsSent = st.objectIdsSent := by
  unfold ProcessClonePacket ProcessClonePacketCommon
  dsimp only
  repeat' split
  all_goals first
    | rfl
    | (rw [resetPendingRemovalsAll_objectIdsSent]; rfl)

def cl7 : ClientRef := { netId := 4, slotId := 0 }

def st7 : GameState :=
  { emptyState with
    objectIdsSent := fun n => n = 5
    clients := [cl7] }

def msg7 : CloneMsg :=
  { objectIdBits := natToBits 13 5
    objectType := NetObjEntityType.Automobile
    payload := [true] }

/-- Counterexample for C7: on a state where object id 5 was handed out
(`sent[5]` set, as `SendObjectIds` leaves it) and the owner then creates
entity 5, `ProcessCloneCreate` sets `used[5]` but never clears `sent[5]`,
so immediately after it completes the two bitsets intersect at 5. -/
theorem C7_sent_used_overlap_after_create :
    st7.objectIdsSent 5 = true ∧
    st7.objectIdsUsed 5 = false ∧
    (ProcessCloneCreate st7 cl7 msg7).objectIdsSent 5 = true ∧
    (ProcessCloneCreate st7 cl7 msg7).objectIdsUsed 5 = true := by
  refine ⟨by decide, by decide, by decide, by decide⟩

/-- C7 (amended): immediately after `ProcessCloneCreate` completes, the
`used` bitset has gained exactly the acked object id (the parsed id on
success, 0 on rejection) and the `sent` bitset is unchanged; the two
bitsets are therefore not disjoint whenever the created id was still marked
sent, which is the normal case for a client-originated create. -/
theorem C7_create_sets_used_keeps_sent (st : GameState) (client : ClientRef)
    (msg : CloneMsg) :
    (ProcessCloneCreate st client msg).objectIdsSent = st.objectIdsSent ∧
    (∀ i, (ProcessCloneCreate st client msg).objectIdsUsed i =
      if i = (ProcessClonePacket st client 1 msg).2.getD 0 then true
      else st.objectIdsUsed i) := by
  unfold ProcessCloneCreate
  dsimp only
  constructor
  · exact ProcessClonePacket_objectIdsSent st client 1 msg
  · intro i
    show updateFn (ProcessClonePacket st client 1 msg).1.objectIdsUsed _ true i = _
    rw [updateFn_apply, ProcessClonePacket_objectIdsUsed]

theorem ProcessClonePacket_dup_create (st : GameState) (client : ClientRef)
    (msg : CloneMsg) (e : SyncEntityState)
    (he : GetEntity st (bitsToNat (msg.objectIdBits.take 13)) = some e)
    (hc : e.client.isSome = true) :
    (ProcessClonePacket st client 1 msg).2 = none := by
  unfold ProcessClonePacket
  dsimp only
  simp [GetEntity_modifyClientData, he, hc]

theorem resetPendingRemovalsAll_ackRecords (st : GameState) (objectId n : Nat) :
    ((resetPendingRemovalsAll st objectId).clientData n).ackRecords
      = (st.clientData n).ackRecords := by
  unfold resetPendingRemovalsAll
  refine foldl_preserves (fun s => (s.clientData n).ackRecords) _ _ ?_ st
  intro s b
  by_cases hn : n = b.netId <;> simp [modifyClientData, updateFn, hn]

theorem ProcessClonePacket_ackRecords (st : GameState) (client : ClientRef)
    (pt : Nat) (msg : CloneMsg) (n : Nat) :
    ((ProcessClonePacket st client pt msg).1.clientData n).ackRecords
      = (st.clientData n).ackRecords := by
  unfold ProcessClonePacket ProcessClonePacketCommon
  dsimp only
  repeat' split
  all_goals
    try rw [resetPendingRemovalsAll_ackRecords]
  all_goals
    by_cases hn : n = client.netId <;>
      simp [modifyClientData, commitEntity, updateFn, hn]

/-- C10: for every inbound create record that `ProcessClonePacket` rejects
before completion - here, a duplicate create for an already-live object id -
the out-parameter keeps its default of 0, so `ProcessCloneCreate` still
sets `used[0]` in the global object-id pool and still appends a create-ack
record carrying object id 0 to the sender's ack buffer, rather than acking
the object id actually sent or leaving the pool unchanged. -/
theorem C10_rejected_create_acks_zero (st : GameState) (client : ClientRef)
    (msg : CloneMsg) (e : SyncEntityState)
    (he : GetEntity st (bitsToNat (msg.objectIdBits.take 13)) = some e)
    (hc : e.client.isSome = true) :
    (ProcessCloneCreate st client msg).objectIdsUsed 0 = true ∧
    ((ProcessCloneCreate st client msg).clientData client.netId).ackRecords
      = (st.clientData client.netId).ackRecords ++ [(1, 0)] := by
  have hz := ProcessClonePacket_dup_create st client msg e he hc
  unfold ProcessCloneCreate
  dsimp only
  rw [hz]
  constructor
  · simp [modifyClientData, updateFn]
  · simp [modifyClientData, updateFn, ProcessClonePacket_ackRecords]

/-- Witness for C10 at the duplicate-create fixture. -/
theorem C10_rejected_create_acks_zero_witness :
    GetEntity st3 (bitsToNat (msg3.objectIdBits.take 13)) = some ent3 ∧
    ent3.client.isSome = true ∧
    (ProcessCloneCreate st3 cl3 msg3).objectIdsUsed 0 = true :=
  ⟨rfl, rfl, (C10_rejected_create_acks_zero st3 cl3 msg3 ent3 rfl rfl).1⟩

theorem bitsToNat_from_lt (bs : List Bool) :
    ∀ a : Nat,
      bs.foldl (fun acc b => 2 * acc + (if b then 1 else 0)) a
        < (a + 1) * 2 ^ bs.length := by
  induction bs with
  | nil =>
    intro a
    simpa using Nat.lt_succ_self a
  | cons b bt ih =>
    intro a
    refine lt_of_lt_of_le (ih (2 * a + (if b then 1 else 0))) ?_
    have h1 : 2 * a + (if b then 1 else 0) + 1 ≤ 2 * (a + 1) := by
      cases b <;> simp <;> omega
    calc (2 * a + (if b then 1 else 0) + 1) * 2 ^ bt.length
        ≤ 2 * (a + 1) * 2 ^ bt.length := Nat.mul_le_mul_right _ h1
      _ = (a + 1) * 2 ^ (b :: bt).length := by
          simp only [List.length_cons, pow_succ]
          ring

theorem bitsToNat_take13_lt (bs : List Bool) : bitsToNat (bs.take 13) < 8192 := by
  have h := bitsToNat_from_lt (bs.take 13) 0
  have hlen : (bs.take 13).length ≤ 13 := by
    simp [List.length_take]
  have hpow : 2 ^ (bs.take 13).length ≤ 2 ^ 13 :=
    Nat.pow_le_pow_right (by norm_num) hlen
  have h2 : bitsToNat (bs.take 13) < 2 ^ (bs.take 13).length := by
    simpa [bitsToNat] using h
  exact lt_of_lt_of_le h2 (le_trans hpow (by norm_num))

theorem GetEntity_out_of_range (st : GameState) (objectId : Nat)
    (h : 8192 ≤ objectId) : GetEntity st objectId = none := by
  unfold GetEntity
  rw [if_pos]
  show 1 <<< 13 ≤ objectId
  have h13 : (1 : Nat) <<< 13 = 8192 := by decide
  omega

theorem ProcessClonePacket_fresh_creates (st : GameState) (client : ClientRef)
    (msg : CloneMsg)
    (hnone : GetEntity st (bitsToNat (msg.objectIdBits.take 13)) = none) :
    existsAt (ProcessClonePacket st client 1 msg).1
      (bitsToNat (msg.objectIdBits.take 13)) = true := by
  unfold ProcessClonePacket
  dsimp only
  simp only [GetEntity_modifyClientData, hnone, Bool.not_false]
  norm_num
  simp only [existsAt]
  unfold ProcessClonePacketCommon
  dsimp only [writeAckBits, freshEntity]
  norm_num
  split <;>
    · rw [resetPendingRemovalsAll_entitiesById]
      simp [commitEntity, modifyClientData, updateFn]

def cl8 : ClientRef := { netId := 6, slotId := 0 }

def st8 : GameState := { emptyState with clients := [cl8] }

def msg8 : CloneMsg :=
  { objectIdBits := natToBits 13 0
    objectType := NetObjEntityType.Object
    payload := [true] }

/-- Counterexample for C8: a create record whose 13-bit objectId field is 0,
arriving while registry slot 0 is empty, creates a live entity at object
id 0: the registry slot is written, against the claim that an objectId of 0
produces no entity mutation. -/
theorem C8_create_objectId_zero_creates_entity :
    existsAt st8 0 = false ∧
    existsAt (ProcessClonePacket st8 cl8 1 msg8).1 0 = true := by
  refine ⟨by decide, by decide⟩

/-- C8 (amended): an objectId of 8192 or more can never reach the engine -
the wire field is 13 bits wide, so it decodes below 8192, and `GetEntity`
returns nothing for out-of-range ids - but objectId 0 is not rejected
anywhere: a create record whose objectId field decodes to 0, arriving while
no live entity occupies id 0, creates an entity in registry slot 0. -/
theorem C8_objectId_bounds :
    (∀ bs : List Bool, bitsToNat (bs.take 13) < 8192) ∧
    (∀ (st : GameState) (objectId : Nat), 8192 ≤ objectId →
      GetEntity st objectId = none) ∧
    (∀ (st : GameState) (client : ClientRef) (msg : CloneMsg),
      bitsToNat (msg.objectIdBits.take 13) = 0 →
      GetEntity st 0 = none →
      existsAt (ProcessClonePacket st client 1 msg).1 0 = true) := by
  refine ⟨bitsToNat_take13_lt, GetEntity_out_of_range, ?_⟩
  intro st client msg h0 hnone
  have h := ProcessClonePacket_fresh_creates st client msg (by rw [h0]; exact hnone)
  rwa [h0] at h

/-- Witness for C8 at the id-0 create fixture. -/
theorem C8_objectId_bounds_witness :
    bitsToNat (msg8.objectIdBits.take 13) = 0 ∧
    GetEntity st8 0 = none ∧
    existsAt (ProcessClonePacket st8 cl8 1 msg8).1 0 = true :=
  ⟨by decide, rfl, C8_objectId_bounds.2.2 st8 cl8 msg8 (by decide) rfl⟩

theorem mem_insertCand (x a : ℚ × ClientRef) :
    ∀ l : List (ℚ × ClientRef), a ∈ insertCand x l → a = x ∨ a ∈ l := by
  intro l
  induction l with
  | nil =>
    intro h
    simp only [insertCand, List.mem_singleton] at h
    exact Or.inl h
  | cons y ys ih =>
    intro h
    by_cases hle : x.1 ≤ y.1
    · simp only [insertCand, if_pos hle, List.mem_cons] at h
      rcases h with h | h | h
      · exact Or.inl h
      · exact Or.inr (by simp [h])
      · exact Or.inr (by simp [h])
    · simp only [insertCand, if_neg hle, List.mem_cons] at h
      rcases h with h | h
      · exact Or.inr (by simp [h])
      · rcases ih h with h | h
        · exact Or.inl h
        · exact Or.inr (by simp [h])

theorem mem_insertCand_of (x a : ℚ × ClientRef) :
    ∀ l : List (ℚ × ClientRef), (a = x ∨ a ∈ l) → a ∈ insertCand x l := by
  intro l
  induction l with
  | nil =>
    intro h
    rcases h with h | h
    · simp [insertCand, h]
    · simp at h
  | cons y ys ih =>
    intro h
    by_cases hle : x.1 ≤ y.1
    · simp only [insertCand, if_pos hle, List.mem_cons]
      rcases h with h | h
      · exact Or.inl h
      · rcases List.mem_cons.mp h with h | h
        · exact Or.inr (Or.inl h)
        · exact Or.inr (Or.inr h)
    · simp only [insertCand, if_neg hle, List.mem_cons]
      rcases h with h | h
      · exact Or.inr (ih (Or.inl h))
      · rcases List.mem_cons.mp h with h | h
        · exact Or.inl h
        · exact Or.inr (ih (Or.inr h))

theorem mem_sortCands (a : ℚ × ClientRef) :
    ∀ l : List (ℚ × ClientRef), a ∈ sortCands l ↔ a ∈ l := by
  intro l
  induction l with
  | nil => simp [sortCands]
  | cons x xs ih =>
    constructor
    · intro h
      rcases mem_insertCand x a (sortCands xs) h with h | h
      · simp [h]
      · exact List.mem_cons_of_mem x (ih.mp h)
    · intro h
      rcases List.mem_cons.mp h with h | h
      · exact mem_insertCand_of x a (sortCands xs) (Or.inl h)
      · exact mem_insertCand_of x a (sortCands xs) (Or.inr (ih.mpr h))

/-- Sortedness by distance of a candidate list. -/
def SortedByDist : List (ℚ × ClientRef) → Prop
  | [] => True
  | [_] => True
  | x :: y :: r => x.1 ≤ y.1 ∧ SortedByDist (y :: r)

theorem insertCand_sorted (x : ℚ × ClientRef) :
    ∀ l : List (ℚ × ClientRef), SortedByDist l → SortedByDist (insertCand x l) := by
  intro l
  induction l with
  | nil =>
    intro _
    trivial
  | cons y ys ih =>
    intro hs
    by_cases hle : x.1 ≤ y.1
    · simp only [insertCand, if_pos hle]
      exact ⟨hle, hs⟩
    · simp only [insertCand, if_neg hle]
      push_neg at hle
      have hys : SortedByDist ys := by
        cases ys with
        | nil => trivial
        | cons z zs => exact hs.2
      have htail := ih hys
      cases ys with
      | nil =>
        simp only [insertCand]
        exact ⟨le_of_lt hle, trivial⟩
      | cons z zs =>
        by_cases hxz : x.1 ≤ z.1
        · simp only [insertCand, if_pos hxz]
          exact ⟨le_of_lt hle, hxz, hs.2⟩
        · have htail2 : SortedByDist (z :: insertCand x zs) := by
            simpa only [insertCand, if_neg hxz] using htail
          simp only [insertCand, if_neg hxz]
          exact ⟨hs.1, htail2⟩

theorem sortCands_sorted : ∀ l : List (ℚ × ClientRef), SortedByDist (sortCands l) := by
  intro l
  induction l with
  | nil => trivial
  | cons x xs ih => exact insertCand_sorted x (sortCands xs) ih

theorem sorted_head_le (c : ℚ × ClientRef) :
    ∀ t : List (ℚ × ClientRef), SortedByDist (c :: t) → ∀ a ∈ t, c.1 ≤ a.1 := by
  intro t
  induction t generalizing c with
  | nil =>
    intro _ a ha
    simp at ha
  | cons y ys ih =>
    intro hs a ha
    rcases List.mem_cons.mp ha with h | h
    · subst h
      exact hs.1
    · exact le_trans hs.1 (ih y hs.2 a h)

theorem sortCands_head_min (l : List (ℚ × ClientRef)) (c : ℚ × ClientRef)
    (t : List (ℚ × ClientRef)) (hs : sortCands l = c :: t) :
    ∀ a ∈ l, c.1 ≤ a.1 := by
  intro a ha
  have ha2 : a ∈ c :: t := by
    rw [← hs]
    exact (mem_sortCands a l).mpr ha
  rcases List.mem_cons.mp ha2 with h | h
  · exact le_of_eq (by rw [h])
  · have hsort : SortedByDist (c :: t) := by
      rw [← hs]
      exact sortCands_sorted l
    exact sorted_head_le c t hsort a h

def cl5 : ClientRef := { netId := 1, slotId := 0 }

def cl5c : ClientRef := { netId := 2, slotId := 1 }

def ent5p : SyncEntityState := baseEntity NetObjEntityType.Player (some 2) 7

def ent5 : SyncEntityState :=
  { baseEntity NetObjEntityType.Object (some 1) 5 with posX := 300 }

def st5 : GameState :=
  { emptyState with
    entitiesById := fun n =>
      if n = 7 then some ent5p else if n = 5 then some ent5 else none
    clientData := fun n =>
      if n = 2 then { emptyClientData with playerEntity := some 7 }
      else emptyClientData
    clients := [cl5, cl5c] }

/-- Counterexample for C5: client 1 drops while owning an `Object` entity at
position (300, 0, 0); the only candidate, client 2, has its player focus at
the origin, squared distance exactly 90000. The code removes the entity
(its comparison is at-least `300*300`), while the claim - removal only when
the closest distance strictly exceeds 90000 - predicts reassignment to
client 2. -/
theorem C5_exact_90000_removed :
    HandleClientDropEntityDecision st5 cl5 ent5 = DropAction.remove ∧
    claimDropDecision st5 cl5 ent5 = DropAction.reassign cl5c := by
  have hfoc : playerFocusPos st5 cl5c = some (0, 0, 0) := by
    norm_num [playerFocusPos, st5, cl5c, emptyState, emptyClientData, ent5p,
      baseEntity]
  have hdist : candidateDistance st5 ent5.posX ent5.posY ent5.posZ cl5c = 90000 := by
    rw [candidateDistance, hfoc]
    norm_num [ent5, baseEntity]
  have hcand : collectCandidates st5 cl5 ent5.posX ent5.posY ent5.posZ
      = [((90000 : ℚ), cl5c)] := by
    rw [collectCandidates]
    simp only [st5, cl5, cl5c, emptyState]
    simp [List.filter]
    exact hdist
  constructor
  · unfold HandleClientDropEntityDecision
    rw [hcand]
    simp [sortCands, insertCand, ent5, baseEntity]
    norm_num
  · unfold claimDropDecision
    rw [hcand]
    simp [sortCands, insertCand, ent5, baseEntity]

/-- C5 (amended): on a client drop, an orphaned `Player` entity is always
removed (candidates cleared); otherwise the entity is reassigned to the
candidate client closest by 3D squared distance, unless there is no
candidate or the closest candidate's squared distance is at least 90000
(not `exceeds`: the comparison is `>=`), in which case `RemoveClone` is
called. -/
theorem C5_drop_decision_characterization (st : GameState) (client : ClientRef)
    (e : SyncEntityState) :
    (e.type = NetObjEntityType.Player →
      HandleClientDropEntityDecision st client e = DropAction.remove) ∧
    (collectCandidates st client e.posX e.posY e.posZ = [] →
      HandleClientDropEntityDecision st client e = DropAction.remove) ∧
    ((∀ c ∈ collectCandidates st client e.posX e.posY e.posZ, 90000 ≤ c.1) →
      HandleClientDropEntityDecision st client e = DropAction.remove) ∧
    (∀ tgt, HandleClientDropEntityDecision st client e = DropAction.reassign tgt →
      ∃ d, (d, tgt) ∈ collectCandidates st client e.posX e.posY e.posZ ∧
        d < 90000 ∧
        ∀ c ∈ collectCandidates st client e.posX e.posY e.posZ, d ≤ c.1) ∧
    (e.type ≠ NetObjEntityType.Player →
      (∃ c ∈ collectCandidates st client e.posX e.posY e.posZ, c.1 < 90000) →
      ∃ tgt, HandleClientDropEntityDecision st client e = DropAction.reassign tgt) := by
  have h93 : (300 : ℚ) * 300 = 90000 := by norm_num
  refine ⟨?_, ?_, ?_, ?_, ?_⟩
  · intro hp
    unfold HandleClientDropEntityDecision
    simp [hp]
  · intro hl
    unfold HandleClientDropEntityDecision
    dsimp only
    rw [hl]
    by_cases hp : e.type = NetObjEntityType.Player
    · rw [if_pos hp]
    · rw [if_neg hp]
      rfl
  · intro hall
    unfold HandleClientDropEntityDecision
    dsimp only
    by_cases hp : e.type = NetObjEntityType.Player
    · rw [if_pos hp]
    · rw [if_neg hp]
      rcases hs : sortCands (collectCandidates st client e.posX e.posY e.posZ)
        with _ | ⟨c, t⟩
      · rfl
      · simp only [hs]
        have hc : c ∈ collectCandidates st client e.posX e.posY e.posZ :=
          (mem_sortCands c _).mp (hs ▸ List.mem_cons_self c t)
        rw [if_pos (show c.1 ≥ 300 * 300 by rw [ge_iff_le, h93]; exact hall c hc)]
  · intro tgt hre
    unfold HandleClientDropEntityDecision at hre
    dsimp only at hre
    by_cases hp : e.type = NetObjEntityType.Player
    · rw [if_pos hp] at hre
      exact absurd hre (by simp)
    · rw [if_neg hp] at hre
      rcases hs : sortCands (collectCandidates st client e.posX e.posY e.posZ)
        with _ | ⟨c, t⟩
      · rw [hs] at hre
        exact absurd hre (by simp)
      · simp only [hs] at hre
        by_cases hge : c.1 ≥ 300 * 300
        · rw [if_pos hge] at hre
          exact absurd hre (by simp)
        · rw [if_neg hge] at hre
          have htgt : c.2 = tgt := by injection hre
          have hc : c ∈ collectCandidates st client e.posX e.posY e.posZ :=
            (mem_sortCands c _).mp (hs ▸ List.mem_cons_self c t)
          have hlt : c.1 < 90000 := by
            rw [ge_iff_le, h93] at hge
            push_neg at hge
            exact hge
          refine ⟨c.1, ?_, hlt, sortCands_head_min _ c t hs⟩
          have hpair : (c.1, tgt) = c := by
            rw [← htgt]
          rw [hpair]
          exact hc
  · intro hnp hex
    rcases hex with ⟨c0, hc0, hc0lt⟩
    unfold HandleClientDropEntityDecision
    dsimp only
    rw [if_neg hnp]
    rcases hs : sortCands (collectCandidates st client e.posX e.posY e.posZ)
      with _ | ⟨c, t⟩
    · exact absurd ((mem_sortCands c0 _).mpr hc0) (by rw [hs]; simp)
    · simp only [hs]
      have hmin := sortCands_head_min _ c t hs c0 hc0
      rw [if_neg (show ¬ c.1 ≥ 300 * 300 by
        rw [ge_iff_le, h93]
        push_neg
        exact lt_of_le_of_lt hmin hc0lt)]
      exact ⟨c.2, rfl⟩

def ent5w : SyncEntityState := baseEntity NetObjEntityType.Player (some 1) 6

/-- Witness for C5: an orphaned Player entity is removed. -/
theorem C5_drop_decision_characterization_witness :
    ent5w.type = NetObjEntityType.Player ∧
    HandleClientDropEntityDecision st5 cl5 ent5w = DropAction.remove :=
  ⟨rfl, (C5_drop_decision_characterization st5 cl5 ent5w).1 rfl⟩
